import Mathlib

/-!
Verification of the impactproof check engine against its specification.

Shallow embedding of the Python sources:
  src/impactproof/checks/completeness.py   (run_completeness)
  src/impactproof/checks/duplicates.py     (run_duplicates)
  src/impactproof/checks/consistency.py    (run_consistency)
  src/impactproof/checks/drift.py          (run_drift)
  src/impactproof/standardize/missing_labels.py (apply_missing_labels)
  src/impactproof/cli.py                   (write_fix_list, cmd_run scorecard)

Modelling conventions:
* A pandas DataFrame is a list of column names plus a list of rows; each row
  is a list of cell values in column order.  Row identity is the positional
  index (pandas default RangeIndex), matching the spec.
* A scalar cell is `Value`: `null` models None/NaN, `str` a Python string,
  `num` a numeric scalar carried by its textual representation (its Python
  `str()` form); `str()` of a float/int is injective, so equality of reprs
  models equality of the scalars.  Python cross-type equality (3 == 3.0) is
  not modelled.  `astype(str)` renders NaN as "nan".
* Thresholds, rates and percentage changes are rationals; Python floats are
  modelled by exact rational arithmetic.
* Human-readable message / notes strings are reproduced only up to
  formatting: Python repr quoting and float formatting inside f-strings are
  elided, since no claim depends on the exact text.  The `notes` field is
  omitted from results for the same reason.
* Fallible code returns `Except String`: `run_drift` can raise IndexError
  (see below), so its embedding is `Except`-valued; the other three checks
  are total.
-/

inductive Status
  | PASS
  | WARN
  | FAIL
deriving DecidableEq

def statusOrd : Status → Nat
  | .PASS => 0
  | .WARN => 1
  | .FAIL => 2

/-- A scalar cell value of the table. -/
inductive Value
  | null
  | str (s : String)
  | num (r : String)
deriving DecidableEq

/-- Python `str(v)` as pandas `astype(str)` applies it cell-wise:
NaN renders as "nan". -/
def valueToStr : Value → String
  | .null => "nan"
  | .str s => s
  | .num r => r

/-- Drop leading whitespace characters. -/
def dropLeadingWS : List Char → List Char
  | [] => []
  | c :: cs => if c.isWhitespace then dropLeadingWS cs else c :: cs

/-- Python `str.strip()`: remove surrounding whitespace (structural
implementation so that concrete instances evaluate in the kernel). -/
def pyStrip (s : String) : String :=
  String.mk ((dropLeadingWS ((dropLeadingWS s.data).reverse)).reverse)

example : pyStrip "  NA " = "NA" := by decide
example : pyStrip "NO" = "NO" := by decide

/-- One row of any issues table:
`{check, record_index, field, message, suggested_fix}`. -/
structure Issue where
  check : String
  record_index : Option Nat
  field : Option String
  message : String
  suggested_fix : String
deriving DecidableEq

/-- A pandas DataFrame: fixed column list, rows as lists of cells in column
order. -/
structure DataFrame where
  cols : List String
  rows : List (List Value)
deriving DecidableEq

/-- `df.at[row, c]`: cell of `row` at column `c` (first occurrence of the
column name; absent columns / short rows read as null). -/
def getCell (cols : List String) (row : List Value) (c : String) : Value :=
  match cols.findIdx? (fun x => x == c) with
  | some i => row.getD i Value.null
  | none => Value.null

/-- The shared missing-cell test of completeness.py (line 49: isna or the
stripped text equals "", "NA" or "UNKNOWN") and consistency.py `_is_missing`
(lines 18-22). -/
def isMissingCell (v : Value) : Bool :=
  match v with
  | .null => true
  | _ =>
    let t := pyStrip (valueToStr v)
    t == "" || t == "NA" || t == "UNKNOWN"

/-! ## Completeness  (checks/completeness.py) -/

structure CompletenessCfg where
  required_fields : List String
  pass_threshold : ℚ
  warn_threshold : ℚ

structure CompletenessResult where
  check : String
  status : Status
  completeness_rate : ℚ
  missing_cells : Nat
  total_required_cells : Nat
  issues : List Issue
deriving DecidableEq

/-- Number of present (non-missing) cells of one row over the
`required_fields` rectangle. -/
def rowPresentCount (cols : List String) (required : List String)
    (row : List Value) : Nat :=
  required.countP (fun c => ! isMissingCell (getCell cols row c))

/-- `run_completeness` of checks/completeness.py. -/
def run_completeness (df : DataFrame) (cfg : CompletenessCfg) :
    CompletenessResult :=
  let missingCols := cfg.required_fields.filter (fun c => ! df.cols.contains c)
  if missingCols ≠ [] then
    { check := "completeness"
      status := .FAIL
      completeness_rate := 0
      missing_cells := 0
      total_required_cells :=
        max (cfg.required_fields.length * max df.rows.length 1) 1
      issues := [{ check := "completeness", record_index := none,
                   field := none,
                   message := "Missing required columns in dataset",
                   suggested_fix :=
                     "Update field mapping or provide these columns in the input." }] }
  else
    let totalCells := df.rows.length * cfg.required_fields.length
    let presentCells :=
      (df.rows.map (rowPresentCount df.cols cfg.required_fields)).sum
    let missingCells := totalCells - presentCells
    let rate : ℚ :=
      if totalCells = 0 then 0 else (presentCells : ℚ) / (totalCells : ℚ)
    let st : Status :=
      if rate ≥ cfg.pass_threshold then .PASS
      else if rate ≥ cfg.warn_threshold then .WARN
      else .FAIL
    let issues :=
      df.rows.enum.flatMap (fun p =>
        cfg.required_fields.filterMap (fun c =>
          if isMissingCell (getCell df.cols p.2 c) then
            some { check := "completeness", record_index := some p.1,
                   field := some c,
                   message := "Missing required value for " ++ c,
                   suggested_fix :=
                     "Populate " ++ c ++ " or mark explicitly (NA/UNKNOWN) where appropriate." }
          else none))
    { check := "completeness"
      status := st
      completeness_rate := rate
      missing_cells := missingCells
      total_required_cells := totalCells
      issues := issues }

unseal Rat.mul Rat.add Rat.sub Rat.inv in
example :
    (run_completeness ⟨["age"], [[Value.str "3"], [Value.str "UNKNOWN"]]⟩
      ⟨["age"], 19/20, 17/20⟩).completeness_rate = 1/2 := by decide

unseal Rat.mul Rat.add Rat.sub Rat.inv in
example :
    (run_completeness ⟨["age"], [[Value.str "3"], [Value.str "UNKNOWN"]]⟩
      ⟨["age"], 19/20, 17/20⟩).status = Status.FAIL := by decide

/-! ## Duplicates  (checks/duplicates.py) -/

structure DuplicatesCfg where
  keys : List String
  pass_threshold : ℚ
  warn_threshold : ℚ

structure DuplicatesResult where
  check : String
  status : Status
  duplicate_rows : Nat
  total_rows : Nat
  duplicate_rate : ℚ
  issues : List Issue
deriving DecidableEq

/-- The tuple of key-field values of one row
(`df.duplicated(subset=keys)` compares exactly these tuples; pandas treats
NaN keys as equal, matching `Value.null = Value.null`). -/
def keyTuple (cols : List String) (keys : List String) (row : List Value) :
    List Value :=
  keys.map (getCell cols row)

/-- `run_duplicates` of checks/duplicates.py.  `duplicated(keep=False)`
flags a row iff its key tuple occurs at least twice in the whole table. -/
def run_duplicates (df : DataFrame) (cfg : DuplicatesCfg) : DuplicatesResult :=
  let missingCols := cfg.keys.filter (fun c => ! df.cols.contains c)
  if missingCols ≠ [] then
    { check := "duplicates", status := .FAIL, duplicate_rows := 0,
      total_rows := df.rows.length, duplicate_rate := 0,
      issues := [{ check := "duplicates", record_index := none, field := none,
                   message := "Missing key columns in dataset",
                   suggested_fix :=
                     "Update keys or add/match these columns in input/mapping." }] }
  else if df.rows.length = 0 then
    { check := "duplicates", status := .PASS, duplicate_rows := 0,
      total_rows := 0, duplicate_rate := 0, issues := [] }
  else
    let tuples := df.rows.map (keyTuple df.cols cfg.keys)
    let dupRows := tuples.countP (fun t => 2 ≤ tuples.count t)
    let totalRows := df.rows.length
    let rate : ℚ := mkRat dupRows totalRows
    let st : Status :=
      if rate ≤ cfg.pass_threshold then .PASS
      else if rate ≤ cfg.warn_threshold then .WARN
      else .FAIL
    let issues :=
      (df.rows.enum.filter
          (fun p => 2 ≤ tuples.count (keyTuple df.cols cfg.keys p.2))).map
        (fun p =>
          { check := "duplicates", record_index := some p.1,
            field := some (String.intercalate "," cfg.keys),
            message := "Duplicate record detected for key combination",
            suggested_fix :=
              "De-duplicate upstream, or adjust keys if the duplication is expected." })
    { check := "duplicates", status := st, duplicate_rows := dupRows,
      total_rows := totalRows, duplicate_rate := rate, issues := issues }

unseal Rat.mul Rat.add Rat.sub Rat.inv in
example :
    (run_duplicates
      ⟨["id"], [[Value.num "1"], [Value.num "1"], [Value.num "2"], [Value.num "3"]]⟩
      ⟨["id"], 0, 1/50⟩).duplicate_rows = 2 := by decide

unseal Rat.mul Rat.add Rat.sub Rat.inv in
example :
    (run_duplicates
      ⟨["id"], [[Value.num "1"], [Value.num "1"], [Value.num "2"], [Value.num "3"]]⟩
      ⟨["id"], 0, 1/50⟩).duplicate_rate = 1/2 := by decide

/-! ## Consistency  (checks/consistency.py) -/

/-- A consistency rule:
`{name, when: {field, equals}, then_required, then_equals}`.
`when_field = ""` models a missing/None `when.field` (both are falsy in
`if not when_field`).  `when_equals` and the expected values of
`then_equals` are carried in their Python `str()` form, since the code
immediately applies `str(...).strip()` to them. -/
structure Rule where
  name : String
  when_field : String
  when_equals : String
  then_required : List String
  then_equals : List (String × String)
deriving DecidableEq

structure ConsistencyCfg where
  rules : List Rule
deriving DecidableEq

structure ConsistencyResult where
  check : String
  status : Status
  failed_rules : Nat
  issues_count : Nat
  issues : List Issue
deriving DecidableEq

/-- The `when` mask of a rule on one row (consistency.py line 60):
`df[when_field].astype(str).str.strip() == str(when_equals).strip()`. -/
def rowInScope (cols : List String) (rule : Rule) (row : List Value) : Bool :=
  pyStrip (valueToStr (getCell cols row rule.when_field)) ==
    pyStrip rule.when_equals

/-- `then_equals` comparison text of an actual cell (consistency.py
line 103): `"" if pd.isna(val) else str(val).strip()`. -/
def actualText (v : Value) : String :=
  match v with
  | .null => ""
  | _ => pyStrip (valueToStr v)

/-- All issues one rule contributes, in emission order (consistency.py
lines 41-113): the `when.field` config issue short-circuits the rule;
otherwise `then_required` issues (per required field: config issue if the
column is absent, else one record issue per in-scope row with a missing
value) followed by `then_equals` issues (per pair: config issue if absent,
else one record issue per in-scope row whose text differs from the
expected text). -/
def ruleIssues (df : DataFrame) (rule : Rule) : List Issue :=
  if rule.when_field = "" ∨ ¬ df.cols.contains rule.when_field then
    [{ check := "consistency", record_index := none, field := none,
       message := "Rule " ++ rule.name ++ " skipped: missing when.field " ++
         rule.when_field ++ " in dataset",
       suggested_fix := "Fix field mapping or adjust rule configuration." }]
  else
    let inScope := df.rows.enum.filter (fun p => rowInScope df.cols rule p.2)
    let reqIssues :=
      rule.then_required.flatMap (fun f =>
        if ¬ df.cols.contains f then
          [{ check := "consistency", record_index := none, field := none,
             message := "Rule " ++ rule.name ++ " failed: required field " ++
               f ++ " not in dataset",
             suggested_fix := "Fix field mapping or adjust rule configuration." }]
        else
          inScope.filterMap (fun p =>
            if isMissingCell (getCell df.cols p.2 f) then
              some { check := "consistency", record_index := some p.1,
                     field := some f,
                     message := "Rule " ++ rule.name ++ ": " ++
                       rule.when_field ++ " is " ++ rule.when_equals ++
                       " so " ++ f ++ " is required",
                     suggested_fix := "Populate " ++ f ++
                       " for this record, or correct " ++ rule.when_field ++
                       " if misclassified." }
            else none))
    let eqIssues :=
      rule.then_equals.flatMap (fun fe =>
        if ¬ df.cols.contains fe.1 then
          [{ check := "consistency", record_index := none, field := none,
             message := "Rule " ++ rule.name ++ " failed: field " ++ fe.1 ++
               " not in dataset",
             suggested_fix := "Fix field mapping or adjust rule configuration." }]
        else
          inScope.filterMap (fun p =>
            if actualText (getCell df.cols p.2 fe.1) ≠ pyStrip fe.2 then
              some { check := "consistency", record_index := some p.1,
                     field := some fe.1,
                     message := "Rule " ++ rule.name ++ ": expected " ++
                       fe.1 ++ " == " ++ pyStrip fe.2 ++ " when " ++
                       rule.when_field ++ " == " ++ rule.when_equals,
                     suggested_fix := "Set " ++ fe.1 ++ " to " ++
                       pyStrip fe.2 ++ " or correct " ++ rule.when_field ++ "." }
            else none))
    reqIssues ++ eqIssues

/-- `run_consistency` of checks/consistency.py. -/
def run_consistency (df : DataFrame) (cfg : ConsistencyCfg) :
    ConsistencyResult :=
  if cfg.rules.isEmpty then
    { check := "consistency", status := .PASS, failed_rules := 0,
      issues_count := 0, issues := [] }
  else
    let issues := cfg.rules.flatMap (ruleIssues df)
    let recordIssueCount := issues.countP (fun i => i.record_index ≠ none)
    let configIssueCount := issues.countP (fun i => i.record_index = none)
    let st : Status :=
      if recordIssueCount > 0 then .FAIL
      else if configIssueCount > 0 then .WARN
      else .PASS
    let failedNames :=
      ((cfg.rules.filter (fun r => ruleIssues df r ≠ [])).map Rule.name).dedup
    { check := "consistency", status := st,
      failed_rules := failedNames.length, issues_count := issues.length,
      issues := issues }

example :
    (run_consistency
      ⟨["status", "approver"],
       [[Value.str "approved", Value.str ""], [Value.str "x", Value.str ""]]⟩
      ⟨[⟨"r1", "status", "approved", ["approver"], []⟩]⟩).status =
      Status.FAIL := by decide

example :
    (run_consistency
      ⟨["status", "approver"],
       [[Value.str "approved", Value.str ""], [Value.str "x", Value.str ""]]⟩
      ⟨[⟨"r1", "status", "approved", ["approver"], []⟩]⟩).issues_count = 1 := by
  decide

/-! ## Drift  (checks/drift.py)

`pd.to_datetime(..., errors="coerce")` followed by `.dt.to_period(...)` is
an external pandas collaborator; it is modelled by a parameter
`toPeriod : Value → Option Int` mapping a cell to its calendar period
(`none` = the date failed to parse / NaT, so the row is dropped), with
periods linearly ordered by `Int`.  The configured granularity
(monthly/weekly) is folded into `toPeriod`. -/

structure DriftCfg where
  date_field : String
  baseline_periods : Nat
  warn_pct_change : ℚ
  fail_pct_change : ℚ

structure DriftResult where
  check : String
  status : Status
  latest_period : Option Int
  baseline_avg : ℚ
  latest_count : Nat
  pct_change : ℚ
  issues : List Issue
deriving DecidableEq

instance {e a : Type} [DecidableEq e] [DecidableEq a] :
    DecidableEq (Except e a) := fun x y =>
  match x, y with
  | .error u, .error v =>
    if h : u = v then isTrue (by simp [h]) else isFalse (by simp [h])
  | .ok u, .ok v =>
    if h : u = v then isTrue (by simp [h]) else isFalse (by simp [h])
  | .error _, .ok _ => isFalse (by simp)
  | .ok _, .error _ => isFalse (by simp)

/-- `df2.groupby("_period").size().sort_index()` (drift.py lines 40-45):
rows whose date parses, bucketed by period, one `(period, count)` entry
per distinct period, sorted by period ascending. -/
def periodCounts (toPeriod : Value → Option Int) (df : DataFrame)
    (dateField : String) : List (Int × Nat) :=
  let ps := df.rows.filterMap (fun row => toPeriod (getCell df.cols row dateField))
  let distinct := (ps.dedup).insertionSort (· ≤ ·)
  distinct.map (fun p => (p, ps.count p))

/-- `run_drift` of checks/drift.py.  `Except.error` models the uncaught
`IndexError` that `counts.iloc[-1]` raises when the period series is
empty (date field present, but zero rows with a parseable date). -/
def run_drift (toPeriod : Value → Option Int) (df : DataFrame)
    (cfg : DriftCfg) : Except String DriftResult :=
  if cfg.date_field = "" ∨ ¬ df.cols.contains cfg.date_field then
    .ok { check := "drift", status := .WARN, latest_period := none,
          baseline_avg := 0, latest_count := 0, pct_change := 0, issues := [] }
  else
    let counts := periodCounts toPeriod df cfg.date_field
    match counts.getLast? with
    | none => .error "IndexError: single positional indexer is out-of-bounds"
    | some last =>
      if counts.length ≤ cfg.baseline_periods then
        -- counts is sorted ascending, so counts.index.max() is the last period
        .ok { check := "drift", status := .PASS,
              latest_period := some last.1,
              baseline_avg := mkRat ((counts.map Prod.snd).sum) counts.length,
              latest_count := last.2, pct_change := 0, issues := [] }
      else
        let latestCount := last.2
        -- counts.iloc[-(n+1):-1]: the baseline_periods entries immediately
        -- preceding the latest one
        let baseline := counts.dropLast.drop (counts.length - 1 - cfg.baseline_periods)
        let baselineAvg : ℚ := mkRat ((baseline.map Prod.snd).sum) baseline.length
        let pct : ℚ :=
          if baselineAvg = 0 then 1
          else ((latestCount : ℚ) - baselineAvg) / baselineAvg
        let st : Status :=
          if |pct| ≥ cfg.fail_pct_change then .FAIL
          else if |pct| ≥ cfg.warn_pct_change then .WARN
          else .PASS
        let issues :=
          if st ≠ .PASS then
            [{ check := "drift", record_index := none,
               field := some cfg.date_field,
               message := "Volume drift detected for the latest period",
               suggested_fix :=
                 "Verify reporting completeness, backlogs, or duplicate submissions for this period." }]
          else []
        .ok { check := "drift", status := st, latest_period := some last.1,
              baseline_avg := baselineAvg, latest_count := latestCount,
              pct_change := pct, issues := issues }

/-- A concrete period parser for tests: maps "2024-01".."2024-03" to 1..3,
everything else fails to parse. -/
def toPeriodTest (v : Value) : Option Int :=
  match v with
  | .str "2024-01" => some 1
  | .str "2024-02" => some 2
  | .str "2024-03" => some 3
  | _ => none

example :
    run_drift toPeriodTest ⟨["date"], [[Value.str "not-a-date"]]⟩
      ⟨"date", 2, 3/10, 1/2⟩ =
      .error "IndexError: single positional indexer is out-of-bounds" := by
  decide

unseal Rat.mul Rat.add Rat.sub Rat.inv in
example :
    (run_drift toPeriodTest
      ⟨["date"], [[Value.str "2024-01"], [Value.str "2024-02"],
                  [Value.str "2024-03"], [Value.str "2024-03"]]⟩
      ⟨"date", 2, 3/10, 1/2⟩).map DriftResult.status = .ok Status.FAIL := by
  decide

unseal Rat.mul Rat.add Rat.sub Rat.inv in
example :
    (run_drift toPeriodTest
      ⟨["date"], [[Value.str "2024-01"], [Value.str "2024-02"],
                  [Value.str "2024-03"], [Value.str "2024-03"]]⟩
      ⟨"date", 2, 3/10, 1/2⟩).map DriftResult.pct_change = .ok 1 := by
  decide

/-! ## Missing-label standardization  (standardize/missing_labels.py)

`apply_missing_labels` touches only object-dtype columns; an object cell
is a Python string or None/NaN, modelled as `Option String` (`none` =
null; non-string non-null objects in an object column are out of scope of
the mapping sets used here).  Non-object (numeric) columns pass through
untouched and are modelled by their exact cell lists. -/

inductive MLColumn
  | obj (cells : List (Option String))
  | numeric (cells : List ℚ)
deriving DecidableEq

structure MLConfig where
  na_values : List (Option String)
  no_values : List (Option String)
  unknown_values : List (Option String)

/-- `_to_set` of missing_labels.py: strings are stripped, `None` kept. -/
def toSetNorm (l : List (Option String)) : List (Option String) :=
  l.map (fun x => x.map pyStrip)

/-- The per-cell effect of the column pipeline in `apply_missing_labels`
(lines 44-53): whitespace-normalize, then the UNKNOWN pass, then the NO
pass, then the NA pass — each pass tests the value left by the previous
one. -/
def mlStep (vals : List (Option String)) (label : String)
    (x : Option String) : Option String :=
  if vals.contains x then some label else x

def mlRewrite (cfg : MLConfig) (x : Option String) : Option String :=
  mlStep (toSetNorm cfg.na_values) "NA"
    (mlStep (toSetNorm cfg.no_values) "NO"
      (mlStep (toSetNorm cfg.unknown_values) "UNKNOWN" (x.map pyStrip)))

/-- `apply_missing_labels` of missing_labels.py: object columns are mapped
cell-wise through the three passes; other columns are returned as-is. -/
def apply_missing_labels (cfg : MLConfig) (table : List MLColumn) :
    List MLColumn :=
  table.map (fun col =>
    match col with
    | .obj cells =>
      let s1 := cells.map (fun x => x.map pyStrip)
      let s2 := s1.map (mlStep (toSetNorm cfg.unknown_values) "UNKNOWN")
      let s3 := s2.map (mlStep (toSetNorm cfg.no_values) "NO")
      let s4 := s3.map (mlStep (toSetNorm cfg.na_values) "NA")
      .obj s4
    | .numeric cells => .numeric cells)

/-- The §6 contract read literally: each of the three sets is matched
against the ORIGINAL (stripped) value, with precedence UNKNOWN → NO → NA
resolved as last write wins. -/
def specRewrite (cfg : MLConfig) (x : Option String) : Option String :=
  let x0 := x.map pyStrip
  let r1 := if (toSetNorm cfg.unknown_values).contains x0 then some "UNKNOWN" else x0
  let r2 := if (toSetNorm cfg.no_values).contains x0 then some "NO" else r1
  if (toSetNorm cfg.na_values).contains x0 then some "NA" else r2

example :
    apply_missing_labels ⟨[some "?"], [], [some "?"]⟩
      [.obj [some "?", some "x", none]] =
      [.obj [some "UNKNOWN", some "x", none]] := by decide

example :
    (specRewrite ⟨[], [some "?"], [some "?"]⟩ (some "?")) = some "NO" := by
  decide

example :
    (mlRewrite ⟨[], [some "?"], [some "?"]⟩ (some "?")) = some "UNKNOWN" := by
  decide

/-! ## Aggregation  (cli.py `cmd_run`, lines 68-85): scorecard rows and the
worst-of overall status. -/

structure ScoreRow where
  check : String
  status : Status
  notes : String
deriving DecidableEq

/-- Python `max(statuses, key=order.get)` keeps the current maximum and
replaces it only on a strictly greater key, scanning left to right. -/
def pyMaxStatus (l : List Status) (first : Status) : Status :=
  l.foldl (fun acc s => if statusOrd acc < statusOrd s then s else acc) first

/-- The scorecard written by `cmd_run`: one row per check, then the
synthetic `overall` row. -/
def scorecardRows (comp dups cons drift : Status)
    (compNotes dupsNotes consNotes driftNotes : String) : List ScoreRow :=
  [ { check := "completeness", status := comp, notes := compNotes },
    { check := "duplicates", status := dups, notes := dupsNotes },
    { check := "consistency", status := cons, notes := consNotes },
    { check := "drift", status := drift, notes := driftNotes },
    { check := "overall",
      status := pyMaxStatus [comp, dups, cons, drift] comp,
      notes := "Worst-of check statuses" } ]

/-- The spec-side maximum under PASS(0) < WARN(1) < FAIL(2). -/
def statusMax (a b : Status) : Status :=
  if statusOrd a ≤ statusOrd b then b else a

/-! ## Fix list  (cli.py `write_fix_list`)

`groupby(["check","field","message"], dropna=False, sort=True)` sorts the
distinct signatures ascending (lexicographically per level, NaN keys last),
and `sort_values(["count","check","field"], ascending=[False,True,True])`
is a stable lexicographic sort (numpy lexsort).  Both are modelled with a
stable insertion sort over explicit Boolean comparators; string order is
code-point lexicographic, as in Python/pandas. -/

/-- Code-point lexicographic order on character lists. -/
def listLexLEb : List Char → List Char → Bool
  | [], _ => true
  | _ :: _, [] => false
  | a :: as, b :: bs =>
    if a.toNat < b.toNat then true
    else if b.toNat < a.toNat then false
    else listLexLEb as bs

/-- Python string `<=` (code-point lexicographic). -/
def strLEb (a b : String) : Bool := listLexLEb a.data b.data

/-- Order on a possibly-null sort key: NaN/null sorts last
(pandas `na_position="last"`, and groupby places NaN groups last). -/
def optLEb : Option String → Option String → Bool
  | _, none => true
  | none, some _ => false
  | some a, some b => strLEb a b

/-- An issue-signature triple `(check, field, message)`. -/
def FixKey := String × Option String × Option String
deriving instance DecidableEq for FixKey

/-- Compare by `f` first; on a tie fall back to `le2` (lexicographic
combinator used to build the pandas sort keys). -/
def lexI {α β : Type} [DecidableEq β] (f : α → β) (le1 : β → β → Bool)
    (le2 : α → α → Bool) (x y : α) : Bool :=
  if f x = f y then le2 x y else le1 (f x) (f y)

/-- The groupby key order: check asc, field asc, message asc, nulls last
per level. -/
def keyLEb (x y : FixKey) : Bool :=
  lexI (fun k : FixKey => k.1) strLEb
    (lexI (fun k : FixKey => k.2.1) optLEb
      (fun k1 k2 => optLEb k1.2.2 k2.2.2)) x y

/-- A fix-list row `{check, field, message, count}`. -/
structure FixEntry where
  check : String
  field : Option String
  message : Option String
  count : Nat
deriving DecidableEq

def entrySig (e : FixEntry) : FixKey := (e.check, e.field, e.message)

/-- Descending order on counts (used only between distinct counts). -/
def natDescb (a b : Nat) : Bool := decide (b < a)

/-- The `sort_values(["count","check","field"], ascending=[False,True,True])`
comparator. -/
def le2b (x y : FixEntry) : Bool :=
  lexI FixEntry.count natDescb
    (lexI FixEntry.check strLEb (fun e1 e2 => optLEb e1.field e2.field)) x y

/-- `le2b` refined by the full signature order: count desc, then check asc,
then field asc, then message asc (nulls last). -/
def fullLEb (x y : FixEntry) : Bool :=
  lexI FixEntry.count natDescb
    (fun e1 e2 => keyLEb (entrySig e1) (entrySig e2)) x y

/-- Stable insertion of `a` into `t` under `le`. -/
def insertLe (le : α → α → Bool) (a : α) : List α → List α
  | [] => [a]
  | b :: t => if le a b then a :: b :: t else b :: insertLe le a t

/-- Stable insertion sort: elements the comparator cannot separate keep
their input order, exactly as pandas' stable sorts do. -/
def sortLe (le : α → α → Bool) : List α → List α
  | [] => []
  | a :: t => insertLe le a (sortLe le t)

/-- One row of the combined issues table, as `write_fix_list` reads it:
only the three signature columns matter.  `field`/`message` are nullable
(config-level issues carry a null `field`). -/
structure FixRow where
  check : String
  field : Option String
  message : Option String
deriving DecidableEq

def fixSig (r : FixRow) : FixKey := (r.check, r.field, r.message)

/-- `write_fix_list` of cli.py (lines 17-43): empty input writes an empty
(but correctly headered) fix list; otherwise group the rows by their
signature (groupby sorts the distinct signatures ascending, keeping NaN
keys as their own groups, sorted last), count rows per group, and stably
sort by count descending, then check ascending, then field ascending. -/
def write_fix_list (issues : List FixRow) : List FixEntry :=
  if issues.isEmpty then []
  else
    let sigs := issues.map fixSig
    let groups := sortLe keyLEb sigs.dedup
    let counted := groups.map (fun k =>
      { check := k.1, field := k.2.1, message := k.2.2,
        count := sigs.count k : FixEntry })
    sortLe le2b counted

example :
    (write_fix_list
      [⟨"c", some "f", some "zzz"⟩, ⟨"c", some "f", some "aaa"⟩]).map
        entrySig =
      [("c", some "f", some "aaa"), ("c", some "f", some "zzz")] := by decide

example :
    (write_fix_list
      [⟨"c", none, some "m1"⟩, ⟨"c", some "zzz", some "m2"⟩]).map
        FixEntry.field = [some "zzz", none] := by decide

/-- The spec's missing-cell definition (§4.1): null, or — after trimming
surrounding whitespace and converting to text — the empty string, "NA" or
"UNKNOWN" (case-sensitive). -/
def specMissing (v : Value) : Prop :=
  v = .null ∨ pyStrip (valueToStr v) = "" ∨ pyStrip (valueToStr v) = "NA" ∨
    pyStrip (valueToStr v) = "UNKNOWN"

/-- Total present-cell count over the rows × required_fields rectangle. -/
def presentCellCount (df : DataFrame) (required : List String) : Nat :=
  (df.rows.map (rowPresentCount df.cols required)).sum

/-! ## Theorems -/

theorem pyMaxStatus_four (s1 s2 s3 s4 : Status) :
    pyMaxStatus [s1, s2, s3, s4] s1 =
      statusMax (statusMax (statusMax s1 s2) s3) s4 := by
  cases s1 <;> cases s2 <;> cases s3 <;> cases s4 <;> rfl

/-- C8: for every run over the four checks, the scorecard has one row per
check (in the fixed order) plus a synthetic `overall` row, and the overall
row's status is the maximum of the four check statuses under
PASS(0) < WARN(1) < FAIL(2). -/
theorem scorecard_one_row_per_check_and_overall_max
    (s1 s2 s3 s4 : Status) (n1 n2 n3 n4 : String) :
    (scorecardRows s1 s2 s3 s4 n1 n2 n3 n4).map ScoreRow.check =
      ["completeness", "duplicates", "consistency", "drift", "overall"] ∧
    (scorecardRows s1 s2 s3 s4 n1 n2 n3 n4).map ScoreRow.status =
      [s1, s2, s3, s4, statusMax (statusMax (statusMax s1 s2) s3) s4] := by
  refine ⟨rfl, ?_⟩
  simp only [scorecardRows, List.map, pyMaxStatus_four]

/-- C4 counterexample: the claim says each of the three sets is matched
against the cell's ORIGINAL value with last-write-wins precedence
UNKNOWN → NO → NA.  With `"?"` in both `unknown_values` and `no_values`,
that reading yields `"NO"`, but `apply_missing_labels` chains the passes
on the rewritten value and yields `"UNKNOWN"`. -/
theorem apply_missing_labels_not_original_value_matching :
    apply_missing_labels ⟨[], [some "?"], [some "?"]⟩ [.obj [some "?"]] =
        [.obj [some "UNKNOWN"]] ∧
      specRewrite ⟨[], [some "?"], [some "?"]⟩ (some "?") = some "NO" ∧
      [MLColumn.obj [some "UNKNOWN"]] ≠ [MLColumn.obj [some "NO"]] := by
  refine ⟨by decide, by decide, by decide⟩

/-- C4 (amended): the normalizer preserves the table's shape, passes
non-object (numeric) columns through unchanged, and rewrites each object
cell by three sequential passes — strip, then UNKNOWN, then NO, then NA —
where each later pass matches the value left by the earlier passes (so on
the original value the FIRST matching set in the order UNKNOWN → NO → NA
wins, unless the written label itself belongs to a later set); in
particular a value in `unknown_values` whose label "UNKNOWN" is in
neither `no_values` nor `na_values` always ends as "UNKNOWN". -/
theorem apply_missing_labels_spec (cfg : MLConfig) (table : List MLColumn) :
    (apply_missing_labels cfg table).length = table.length ∧
    (∀ cells : List ℚ, (MLColumn.numeric cells) ∈ table →
      (MLColumn.numeric cells) ∈ apply_missing_labels cfg table) ∧
    (apply_missing_labels cfg table = table.map (fun col =>
      match col with
      | .obj cells => .obj (cells.map (mlRewrite cfg))
      | .numeric cells => .numeric cells)) ∧
    (∀ x : Option String,
      (toSetNorm cfg.unknown_values).contains (x.map pyStrip) = true →
      (toSetNorm cfg.no_values).contains (some "UNKNOWN") = false →
      (toSetNorm cfg.na_values).contains (some "UNKNOWN") = false →
      mlRewrite cfg x = some "UNKNOWN") := by
  have hmain : apply_missing_labels cfg table = table.map (fun col =>
      match col with
      | .obj cells => .obj (cells.map (mlRewrite cfg))
      | .numeric cells => .numeric cells) := by
    unfold apply_missing_labels
    refine List.map_congr_left (fun col _ => ?_)
    cases col with
    | numeric cells => rfl
    | obj cells =>
      simp only [List.map_map]
      rfl
  refine ⟨?_, ?_, hmain, ?_⟩
  · rw [hmain, List.length_map]
  · intro cells hmem
    rw [hmain]
    exact List.mem_map.mpr ⟨.numeric cells, hmem, rfl⟩
  · intro x h1 h2 h3
    unfold mlRewrite mlStep
    simp only [h1, if_true, h2, h3]
    simp
    simpa using h3

/-- C4 witness: the amended theorem applied at a concrete configuration and
table, discharging the precedence hypotheses. -/
theorem apply_missing_labels_spec_witness :
    mlRewrite ⟨[some "x"], [some "y"], [some "?"]⟩ (some " ? ") =
      some "UNKNOWN" :=
  (apply_missing_labels_spec ⟨[some "x"], [some "y"], [some "?"]⟩ []).2.2.2
    (some " ? ") (by decide) (by decide) (by decide)

theorem isMissingCell_iff (v : Value) :
    isMissingCell v = true ↔ specMissing v := by
  cases v <;>
    simp [isMissingCell, specMissing, valueToStr, Bool.or_eq_true, or_assoc]

/-- C5: with all required fields present, a cell is missing iff it is null
or its stripped text is "", "NA" or "UNKNOWN" ("NO" is always present);
`completeness_rate = present_cells / total_required_cells` over the
rows × required_fields rectangle (0 when the rectangle is empty); and the
status is PASS iff rate ≥ pass_threshold, WARN iff
warn_threshold ≤ rate < pass_threshold, and FAIL otherwise. -/
theorem statusOfRate_spec (q p w : ℚ) :
    ((if q ≥ p then Status.PASS else if q ≥ w then .WARN else .FAIL) =
        .PASS ↔ p ≤ q) ∧
    ((if q ≥ p then Status.PASS else if q ≥ w then .WARN else .FAIL) =
        .WARN ↔ w ≤ q ∧ q < p) ∧
    ((if q ≥ p then Status.PASS else if q ≥ w then .WARN else .FAIL) =
        .FAIL ↔ q < p ∧ q < w) := by
  split_ifs with h1 h2
  · exact ⟨iff_of_true rfl h1,
      iff_of_false (by simp) (fun h => absurd h1 (not_le.mpr h.2)),
      iff_of_false (by simp) (fun h => absurd h1 (not_le.mpr h.1))⟩
  · exact ⟨iff_of_false (by simp) h1,
      iff_of_true rfl ⟨h2, not_le.mp h1⟩,
      iff_of_false (by simp) (fun h => absurd h2 (not_le.mpr h.2))⟩
  · exact ⟨iff_of_false (by simp) h1,
      iff_of_false (by simp) (fun h => h2 h.1),
      iff_of_true rfl ⟨not_le.mp h1, not_le.mp h2⟩⟩

/-- C5: with all required fields present, a cell is missing iff it is null
or its stripped text is "", "NA" or "UNKNOWN" ("NO" is always present);
`completeness_rate = present_cells / total_required_cells` over the
rows × required_fields rectangle (0 when the rectangle is empty); and the
status is PASS iff rate ≥ pass_threshold, WARN iff
warn_threshold ≤ rate < pass_threshold, and FAIL otherwise. -/
theorem run_completeness_spec (df : DataFrame) (cfg : CompletenessCfg)
    (hreq : ∀ c ∈ cfg.required_fields, df.cols.contains c = true) :
    (∀ v : Value, isMissingCell v = true ↔ specMissing v) ∧
    isMissingCell (Value.str "NO") = false ∧
    (run_completeness df cfg).total_required_cells =
      df.rows.length * cfg.required_fields.length ∧
    (run_completeness df cfg).completeness_rate =
      (if (run_completeness df cfg).total_required_cells = 0 then (0 : ℚ)
       else (presentCellCount df cfg.required_fields : ℚ) /
         ((run_completeness df cfg).total_required_cells : ℚ)) ∧
    ((run_completeness df cfg).status = .PASS ↔
      cfg.pass_threshold ≤ (run_completeness df cfg).completeness_rate) ∧
    ((run_completeness df cfg).status = .WARN ↔
      cfg.warn_threshold ≤ (run_completeness df cfg).completeness_rate ∧
        (run_completeness df cfg).completeness_rate < cfg.pass_threshold) ∧
    ((run_completeness df cfg).status = .FAIL ↔
      (run_completeness df cfg).completeness_rate < cfg.pass_threshold ∧
        (run_completeness df cfg).completeness_rate < cfg.warn_threshold) := by
  have hfil : cfg.required_fields.filter (fun c => ! df.cols.contains c) = [] := by
    rw [List.filter_eq_nil_iff]
    intro c hc
    have h := hreq c hc
    simp at h
    simp [h]
  refine ⟨isMissingCell_iff, by decide, ?_, ?_, ?_, ?_, ?_⟩ <;>
    simp only [run_completeness, hfil, ne_eq, not_true_eq_false, if_false,
      presentCellCount]
  · exact (statusOfRate_spec _ cfg.pass_threshold cfg.warn_threshold).1
  · exact (statusOfRate_spec _ cfg.pass_threshold cfg.warn_threshold).2.1
  · exact (statusOfRate_spec _ cfg.pass_threshold cfg.warn_threshold).2.2

/-- C5 witness: the theorem applied at a one-row table. -/
theorem run_completeness_spec_witness :
    (∀ c ∈ (⟨["age"], 19/20, 17/20⟩ : CompletenessCfg).required_fields,
        (⟨["age"], [[Value.str "1"]]⟩ : DataFrame).cols.contains c = true) ∧
    ((run_completeness ⟨["age"], [[Value.str "1"]]⟩ ⟨["age"], 19/20, 17/20⟩).status = .PASS ↔
      (19/20 : ℚ) ≤ (run_completeness ⟨["age"], [[Value.str "1"]]⟩
        ⟨["age"], 19/20, 17/20⟩).completeness_rate) :=
  ⟨by decide,
   (run_completeness_spec ⟨["age"], [[Value.str "1"]]⟩ ⟨["age"], 19/20, 17/20⟩
     (by decide)).2.2.2.2.1⟩

theorem sum_map_le_mul {α : Type} (f : α → Nat) (K : Nat) (h : ∀ a, f a ≤ K)
    (l : List α) : (l.map f).sum ≤ l.length * K := by
  induction l with
  | nil => simp
  | cons a t ih =>
    have := h a
    simp only [List.map_cons, List.sum_cons, List.length_cons, Nat.succ_mul]
    omega

theorem sum_le_sum_set (l : List Nat) (i : Nat) (x y : Nat)
    (hx : l[i]? = some x) (hxy : x ≤ y) : l.sum ≤ (l.set i y).sum := by
  induction l generalizing i with
  | nil => simp at hx
  | cons a t ih =>
    cases i with
    | zero =>
      simp only [List.getElem?_cons_zero, Option.some.injEq] at hx
      subst hx
      simp only [List.set_cons_zero, List.sum_cons]
      omega
    | succ n =>
      simp only [List.getElem?_cons_succ] at hx
      have := ih n hx
      simp only [List.set_cons_succ, List.sum_cons]
      omega

/-- Replacing any cell of a row by a present (non-missing) value never
decreases the row's present-cell count. -/
theorem rowPresentCount_le_set (cols required : List String)
    (row : List Value) (j : Nat) (v : Value)
    (hpres : isMissingCell v = false) :
    rowPresentCount cols required row ≤
      rowPresentCount cols required (row.set j v) := by
  unfold rowPresentCount
  apply List.countP_mono_left
  intro c _
  unfold getCell
  cases hidx : cols.findIdx? (fun x => x == c) with
  | none => exact fun hc => hc
  | some k =>
    intro hc
    dsimp only at hc ⊢
    rw [List.getD_eq_getElem?_getD] at hc ⊢
    rw [List.getElem?_set]
    by_cases hjk : j = k
    · subst hjk
      by_cases hlt : j < row.length
      · simp [hlt, hpres]
      · simp only [if_pos rfl, if_neg hlt]
        rw [List.getElem?_eq_none (by omega)] at hc
        simp [isMissingCell] at hc
    · simp only [if_neg hjk]
      exact hc

/-- C9: with all required fields present as columns, the completeness rate
lies in [0,1], and replacing a missing-token cell by a present value (all
else unchanged) never decreases the rate. -/
theorem run_completeness_rate_bounds_monotone
    (df : DataFrame) (cfg : CompletenessCfg) (i j : Nat)
    (row : List Value) (v : Value)
    (hreq : ∀ c ∈ cfg.required_fields, df.cols.contains c = true)
    (hrow : df.rows[i]? = some row)
    (_hmiss : isMissingCell (row.getD j Value.null) = true)
    (hpres : isMissingCell v = false) :
    (0 ≤ (run_completeness df cfg).completeness_rate ∧
      (run_completeness df cfg).completeness_rate ≤ 1) ∧
    (run_completeness df cfg).completeness_rate ≤
      (run_completeness ⟨df.cols, df.rows.set i (row.set j v)⟩ cfg).completeness_rate := by
  have hfil : cfg.required_fields.filter (fun c => ! df.cols.contains c) = [] := by
    rw [List.filter_eq_nil_iff]
    intro c hc
    have h := hreq c hc
    simp at h
    simp [h]
  have hple : ∀ (rows : List (List Value)),
      (rows.map (rowPresentCount df.cols cfg.required_fields)).sum ≤
        rows.length * cfg.required_fields.length :=
    fun rows => sum_map_le_mul _ _ (fun r => List.countP_le_length _) rows
  simp only [run_completeness, hfil, ne_eq, not_true_eq_false, if_false]
  constructor
  · -- bounds
    split_ifs with h0
    · constructor <;> norm_num
    · have htot : 0 < ((df.rows.length * cfg.required_fields.length : ℕ) : ℚ) := by
        have : 0 < df.rows.length * cfg.required_fields.length := Nat.pos_of_ne_zero h0
        exact_mod_cast this
      constructor
      · positivity
      · rw [div_le_one htot]
        exact_mod_cast hple df.rows
  · -- monotonicity
    have hlen : (df.rows.set i (row.set j v)).length = df.rows.length := by simp
    have hsum : (df.rows.map (rowPresentCount df.cols cfg.required_fields)).sum ≤
        ((df.rows.set i (row.set j v)).map
          (rowPresentCount df.cols cfg.required_fields)).sum := by
      rw [List.map_set]
      exact sum_le_sum_set _ i _ _
        (by rw [List.getElem?_map, hrow]; rfl)
        (rowPresentCount_le_set df.cols cfg.required_fields row j v hpres)
    rw [hlen]
    split_ifs with h0
    · exact le_refl _
    · have htot : 0 < ((df.rows.length * cfg.required_fields.length : ℕ) : ℚ) := by
        have : 0 < df.rows.length * cfg.required_fields.length := Nat.pos_of_ne_zero h0
        exact_mod_cast this
      exact (div_le_div_iff_of_pos_right htot).mpr (by exact_mod_cast hsum)

/-- C9 witness: the theorem applied at a concrete one-cell table, replacing
an "NA" cell by "1". -/
theorem run_completeness_rate_bounds_monotone_witness :
    (0 ≤ (run_completeness ⟨["age"], [[Value.str "NA"]]⟩
        ⟨["age"], 19/20, 17/20⟩).completeness_rate ∧
      (run_completeness ⟨["age"], [[Value.str "NA"]]⟩
        ⟨["age"], 19/20, 17/20⟩).completeness_rate ≤ 1) ∧
    (run_completeness ⟨["age"], [[Value.str "NA"]]⟩
        ⟨["age"], 19/20, 17/20⟩).completeness_rate ≤
      (run_completeness ⟨["age"], [([Value.str "NA"].set 0 (Value.str "1"))].set 0 ([Value.str "NA"].set 0 (Value.str "1"))⟩
        ⟨["age"], 19/20, 17/20⟩).completeness_rate := by
  have h := run_completeness_rate_bounds_monotone ⟨["age"], [[Value.str "NA"]]⟩
    ⟨["age"], 19/20, 17/20⟩ 0 0 [Value.str "NA"] (Value.str "1")
    (by decide) (by decide) (by decide) (by decide)
  exact ⟨h.1, h.2⟩

theorem count_le_one_of_nodup {α : Type} [BEq α] [LawfulBEq α]
    {l : List α} (h : l.Nodup) (a : α) : l.count a ≤ 1 := by
  induction l with
  | nil => simp
  | cons b t ih =>
    rcases List.nodup_cons.mp h with ⟨hb, ht⟩
    by_cases hab : a = b
    · subst hab
      rw [List.count_cons_self, List.count_eq_zero.mpr hb]
    · rw [List.count_cons_of_ne hab]
      exact ih ht

/-- An element at position `i` has multiplicity ≥ 2 iff some OTHER position
carries an equal element. -/
theorem two_le_count_iff_exists_other {α : Type} [BEq α] [LawfulBEq α]
    (l : List α) (i : Nat) (x : α) (hx : l[i]? = some x) :
    2 ≤ l.count x ↔ ∃ j, j ≠ i ∧ l[j]? = some x := by
  obtain ⟨hi, hxi⟩ := List.getElem?_eq_some_iff.mp hx
  have hdec : l = l.take i ++ x :: l.drop (i + 1) := by
    conv_lhs => rw [← List.take_append_drop i l]
    rw [List.drop_eq_getElem_cons hi, hxi]
  have hcnt : l.count x = (l.take i).count x + (l.drop (i + 1)).count x + 1 := by
    conv_lhs => rw [hdec]
    simp [List.count_append]
    omega
  constructor
  · intro h2
    have : 0 < (l.take i).count x ∨ 0 < (l.drop (i + 1)).count x := by omega
    rcases this with h | h
    · obtain ⟨n, hn⟩ := List.mem_iff_getElem?.mp (List.count_pos_iff.mp h)
      have hlt : n < i := by
        have := List.getElem?_eq_some_iff.mp hn
        have := this.1
        rw [List.length_take] at this
        omega
      exact ⟨n, by omega, by rw [← List.getElem?_take_of_lt hlt]; exact hn⟩
    · obtain ⟨n, hn⟩ := List.mem_iff_getElem?.mp (List.count_pos_iff.mp h)
      rw [List.getElem?_drop] at hn
      exact ⟨i + 1 + n, by omega, hn⟩
  · rintro ⟨j, hne, hj⟩
    rcases Nat.lt_or_ge j i with hji | hji
    · have : x ∈ l.take i := by
        rw [List.mem_iff_getElem?]
        exact ⟨j, by rw [List.getElem?_take_of_lt hji]; exact hj⟩
      have := List.count_pos_iff.mpr this
      omega
    · have hji' : i + 1 ≤ j := by omega
      have : x ∈ l.drop (i + 1) := by
        rw [List.mem_iff_getElem?]
        refine ⟨j - (i + 1), ?_⟩
        rw [List.getElem?_drop]
        rw [show i + 1 + (j - (i + 1)) = j from by omega]
        exact hj
      have := List.count_pos_iff.mpr this
      omega

/-- The multiplicity-≥2 filter count over a list is never exactly 1. -/
theorem countP_two_le_count_ne_one {α : Type} [BEq α] [LawfulBEq α] (l : List α) :
    l.countP (fun t => 2 ≤ l.count t) = 0 ∨
      2 ≤ l.countP (fun t => 2 ≤ l.count t) := by
  by_cases h0 : l.countP (fun t => 2 ≤ l.count t) = 0
  · exact Or.inl h0
  · right
    have hpos : 0 < l.countP (fun t => 2 ≤ l.count t) :=
      Nat.pos_of_ne_zero h0
    obtain ⟨t, htl, htp⟩ := List.countP_pos_iff.mp hpos
    have htc : 2 ≤ l.count t := by simpa using htp
    calc 2 ≤ l.count t := htc
    _ = l.countP (· == t) := List.count_eq_countP t l
    _ ≤ l.countP (fun u => 2 ≤ l.count u) := by
        apply List.countP_mono_left
        intro u _ hu
        have : u = t := by simpa using hu
        subst this
        simpa using htc

/-- C6: with a non-empty table and all key columns present, a row gets a
duplicate issue iff some other row carries an exactly equal key tuple (so
all members of a duplicated group are flagged); the duplicate rate is
`duplicate_rows / total_rows` and lies in [0,1]; and when all key tuples
are distinct the check reports zero duplicate rows and PASS at the default
pass threshold 0. -/
theorem run_duplicates_spec (df : DataFrame) (cfg : DuplicatesCfg)
    (hkeys : ∀ k ∈ cfg.keys, df.cols.contains k = true)
    (hne : df.rows ≠ []) :
    (∀ i x, (df.rows.map (keyTuple df.cols cfg.keys))[i]? = some x →
      ((∃ issue ∈ (run_duplicates df cfg).issues,
          issue.record_index = some i) ↔
        ∃ j, j ≠ i ∧ (df.rows.map (keyTuple df.cols cfg.keys))[j]? = some x)) ∧
    (run_duplicates df cfg).duplicate_rate =
      ((run_duplicates df cfg).duplicate_rows : ℚ) /
        ((run_duplicates df cfg).total_rows : ℚ) ∧
    0 ≤ (run_duplicates df cfg).duplicate_rate ∧
    (run_duplicates df cfg).duplicate_rate ≤ 1 ∧
    (cfg.pass_threshold = 0 →
      (df.rows.map (keyTuple df.cols cfg.keys)).Nodup →
      (run_duplicates df cfg).duplicate_rows = 0 ∧
        (run_duplicates df cfg).status = .PASS) := by
  have hfil : cfg.keys.filter (fun c => ! df.cols.contains c) = [] := by
    rw [List.filter_eq_nil_iff]
    intro c hc
    have h := hkeys c hc
    simp at h
    simp [h]
  have hlen0 : ¬ df.rows.length = 0 := by
    simpa [List.length_eq_zero] using hne
  have hcle : (df.rows.map (keyTuple df.cols cfg.keys)).countP
      (fun t => 2 ≤ (df.rows.map (keyTuple df.cols cfg.keys)).count t) ≤
      df.rows.length := by
    have h1 : (df.rows.map (keyTuple df.cols cfg.keys)).countP
        (fun t => 2 ≤ (df.rows.map (keyTuple df.cols cfg.keys)).count t) ≤
        (df.rows.map (keyTuple df.cols cfg.keys)).length :=
      List.countP_le_length _
    simpa using h1
  simp only [run_duplicates, hfil, ne_eq, not_true_eq_false, if_false,
    hlen0]
  refine ⟨?_, ?_, ?_, ?_, ?_⟩
  · -- flagged iff another row has an equal tuple
    intro i x hx
    refine Iff.trans ?_ (two_le_count_iff_exists_other
      (df.rows.map (keyTuple df.cols cfg.keys)) i x hx)
    constructor
    · rintro ⟨issue, hmem, hrec⟩
      simp only [List.mem_map] at hmem
      obtain ⟨p, hp, rfl⟩ := hmem
      simp only [List.mem_filter] at hp
      obtain ⟨hpe, hpc⟩ := hp
      simp only [Option.some.injEq] at hrec
      obtain ⟨i2, row⟩ := p
      simp only at hrec
      subst hrec
      rw [List.mk_mem_enum_iff_getElem?] at hpe
      have hmap : (df.rows.map (keyTuple df.cols cfg.keys))[i2]? =
          some (keyTuple df.cols cfg.keys row) := by
        rw [List.getElem?_map, hpe]
        rfl
      rw [hx] at hmap
      obtain rfl : x = keyTuple df.cols cfg.keys row := by
        simpa using hmap
      simpa using hpc
    · intro h2
      cases hrow : df.rows[i]? with
      | none =>
        rw [List.getElem?_map, hrow] at hx
        simp at hx
      | some row =>
        have hx2 := hx
        rw [List.getElem?_map, hrow] at hx2
        simp only [Option.map_some'] at hx2
        obtain rfl : x = keyTuple df.cols cfg.keys row := by
          simpa using hx2.symm
        exact ⟨_, List.mem_map.mpr ⟨(i, row), List.mem_filter.mpr
          ⟨List.mk_mem_enum_iff_getElem?.mpr hrow, by simpa using h2⟩,
          rfl⟩, rfl⟩
  · -- rate is dup/total
    rw [Rat.mkRat_eq_div]
    push_cast
    rfl
  · rw [Rat.mkRat_eq_div]
    positivity
  · rw [Rat.mkRat_eq_div]
    rw [div_le_one (by exact_mod_cast Nat.pos_of_ne_zero hlen0)]
    exact_mod_cast hcle
  · intro hpass hnodup
    have hzero : (List.map (keyTuple df.cols cfg.keys) df.rows).countP
        (fun t => 2 ≤ (df.rows.map (keyTuple df.cols cfg.keys)).count t) = 0 := by
      rw [List.countP_eq_zero]
      intro t _
      simp only [decide_eq_true_eq]
      have hle := count_le_one_of_nodup hnodup t
      omega
    refine ⟨hzero, ?_⟩
    rw [hzero, hpass]
    simp [Rat.zero_mkRat]

/-- C6 witness: the theorem applied at the 4-row example table with ids
1,1,2,3. -/
theorem run_duplicates_spec_witness :
    (∀ k ∈ (⟨["id"], 0, 1/50⟩ : DuplicatesCfg).keys,
        (⟨["id"], [[Value.num "1"], [Value.num "1"], [Value.num "2"],
          [Value.num "3"]]⟩ : DataFrame).cols.contains k = true) ∧
    0 ≤ (run_duplicates
      ⟨["id"], [[Value.num "1"], [Value.num "1"], [Value.num "2"],
        [Value.num "3"]]⟩ ⟨["id"], 0, 1/50⟩).duplicate_rate :=
  ⟨by decide,
   (run_duplicates_spec
     ⟨["id"], [[Value.num "1"], [Value.num "1"], [Value.num "2"],
       [Value.num "3"]]⟩ ⟨["id"], 0, 1/50⟩
     (by decide) (by decide)).2.2.1⟩

theorem countP_enum_snd {α : Type} (q : α → Bool) (l : List α) :
    l.enum.countP (fun p => q p.2) = l.countP q := by
  have h1 : l.countP q = (l.enum.map Prod.snd).countP q := by
    rw [List.enum_map_snd]
  rw [h1, List.countP_map]
  rfl

/-- C10: with a non-empty table and all key columns present, the duplicate
row count is never exactly 1 (it is 0 or at least 2), exactly one issue row
is emitted per flagged row, and every flagged row's key tuple occurs at
least twice in the table. -/
theorem run_duplicates_invariants (df : DataFrame) (cfg : DuplicatesCfg)
    (hkeys : ∀ k ∈ cfg.keys, df.cols.contains k = true)
    (hne : df.rows ≠ []) :
    ((run_duplicates df cfg).duplicate_rows = 0 ∨
      2 ≤ (run_duplicates df cfg).duplicate_rows) ∧
    (run_duplicates df cfg).issues.length =
      (run_duplicates df cfg).duplicate_rows ∧
    (∀ issue ∈ (run_duplicates df cfg).issues, ∀ i,
      issue.record_index = some i →
      ∃ t, (df.rows.map (keyTuple df.cols cfg.keys))[i]? = some t ∧
        2 ≤ (df.rows.map (keyTuple df.cols cfg.keys)).count t) := by
  have hfil : cfg.keys.filter (fun c => ! df.cols.contains c) = [] := by
    rw [List.filter_eq_nil_iff]
    intro c hc
    have h := hkeys c hc
    simp at h
    simp [h]
  have hlen0 : ¬ df.rows.length = 0 := by
    simpa [List.length_eq_zero] using hne
  simp only [run_duplicates, hfil, ne_eq, not_true_eq_false, if_false, hlen0]
  refine ⟨?_, ?_, ?_⟩
  · exact countP_two_le_count_ne_one (df.rows.map (keyTuple df.cols cfg.keys))
  · rw [List.length_map, ← List.countP_eq_length_filter]
    rw [countP_enum_snd
      (fun row => decide (2 ≤ (df.rows.map (keyTuple df.cols cfg.keys)).count
        (keyTuple df.cols cfg.keys row))) df.rows]
    rw [List.countP_map]
    rfl
  · rintro issue hmem i hrec
    simp only [List.mem_map] at hmem
    obtain ⟨p, hp, rfl⟩ := hmem
    simp only [List.mem_filter] at hp
    obtain ⟨hpe, hpc⟩ := hp
    simp only [Option.some.injEq] at hrec
    obtain ⟨i2, row⟩ := p
    simp only at hrec
    subst hrec
    rw [List.mk_mem_enum_iff_getElem?] at hpe
    refine ⟨keyTuple df.cols cfg.keys row, ?_, by simpa using hpc⟩
    rw [List.getElem?_map, hpe]
    rfl

/-- C10 witness: the theorem applied at the 4-row example table. -/
theorem run_duplicates_invariants_witness :
    ((⟨["id"], [[Value.num "1"], [Value.num "1"], [Value.num "2"],
        [Value.num "3"]]⟩ : DataFrame).rows ≠ []) ∧
    ((run_duplicates
      ⟨["id"], [[Value.num "1"], [Value.num "1"], [Value.num "2"],
        [Value.num "3"]]⟩ ⟨["id"], 0, 1/50⟩).duplicate_rows = 0 ∨
      2 ≤ (run_duplicates
        ⟨["id"], [[Value.num "1"], [Value.num "1"], [Value.num "2"],
          [Value.num "3"]]⟩ ⟨["id"], 0, 1/50⟩).duplicate_rows) :=
  ⟨by decide,
   (run_duplicates_invariants
     ⟨["id"], [[Value.num "1"], [Value.num "1"], [Value.num "2"],
       [Value.num "3"]]⟩ ⟨["id"], 0, 1/50⟩
     (by decide) (by decide)).1⟩

/-- C2 counterexample: one row with status "x" (so no rule scope matches),
and a rule whose `then_required` names a column absent from the table.
The claim predicts PASS; the code emits a config-level issue and returns
WARN (consistency.py lines 64-74 run the column-existence check regardless
of the scope). -/
theorem run_consistency_empty_scope_not_pass :
    ((⟨["status"], [[Value.str "x"]]⟩ : DataFrame).rows.all
      (fun row => ! rowInScope ["status"]
        ⟨"r1", "status", "approved", ["approver"], []⟩ row)) = true ∧
    (run_consistency ⟨["status"], [[Value.str "x"]]⟩
      ⟨[⟨"r1", "status", "approved", ["approver"], []⟩]⟩).status =
      Status.WARN ∧
    Status.WARN ≠ Status.PASS := by decide

/-- C2 (amended): if no row satisfies any rule's `when` condition AND every
field a rule references (its `when.field`, its `then_required` fields and
its `then_equals` fields) exists in the table's columns, then
run_consistency returns PASS and emits no issues at all — in particular
zero record-level issues, regardless of the contents of the `then_*`
clauses. -/
theorem run_consistency_empty_scope_pass (df : DataFrame)
    (cfg : ConsistencyCfg)
    (hok : ∀ rule ∈ cfg.rules,
      rule.when_field ≠ "" ∧ df.cols.contains rule.when_field = true ∧
      (∀ f ∈ rule.then_required, df.cols.contains f = true) ∧
      (∀ fe ∈ rule.then_equals, df.cols.contains fe.1 = true))
    (hscope : ∀ rule ∈ cfg.rules, ∀ row ∈ df.rows,
      rowInScope df.cols rule row = false) :
    (run_consistency df cfg).status = .PASS ∧
    (run_consistency df cfg).issues = [] := by
  by_cases hemp : cfg.rules.isEmpty
  · simp [run_consistency, hemp]
  · have hissues : cfg.rules.flatMap (ruleIssues df) = [] := by
      rw [List.flatMap_eq_nil_iff]
      intro rule hr
      obtain ⟨h1, h2, h3, h4⟩ := hok rule hr
      simp only [List.contains, List.elem_eq_mem, decide_eq_true_eq] at h2 h3 h4
      have hsc : df.rows.enum.filter
          (fun p => rowInScope df.cols rule p.2) = [] := by
        rw [List.filter_eq_nil_iff]
        rintro ⟨i, row⟩ hp
        rw [List.mk_mem_enum_iff_getElem?] at hp
        have hmem : row ∈ df.rows := List.getElem?_mem hp
        simp [hscope rule hr row hmem]
      simp only [ruleIssues]
      rw [if_neg (by simp [h1, h2])]
      rw [hsc]
      have hreq : rule.then_required.flatMap (fun f =>
          if ¬ df.cols.contains f then
            [{ check := "consistency", record_index := none, field := none,
               message := "Rule " ++ rule.name ++ " failed: required field " ++
                 f ++ " not in dataset",
               suggested_fix := "Fix field mapping or adjust rule configuration." : Issue}]
          else
            ([] : List (Nat × List Value)).filterMap (fun p =>
              if isMissingCell (getCell df.cols p.2 f) then
                some { check := "consistency", record_index := some p.1,
                       field := some f,
                       message := "Rule " ++ rule.name ++ ": " ++
                         rule.when_field ++ " is " ++ rule.when_equals ++
                         " so " ++ f ++ " is required",
                       suggested_fix := "Populate " ++ f ++
                         " for this record, or correct " ++ rule.when_field ++
                         " if misclassified." }
              else none)) = [] := by
        rw [List.flatMap_eq_nil_iff]
        intro f hf
        rw [if_neg (by simp [h3 f hf])]
        rfl
      have heqs : rule.then_equals.flatMap (fun fe =>
          if ¬ df.cols.contains fe.1 then
            [{ check := "consistency", record_index := none, field := none,
               message := "Rule " ++ rule.name ++ " failed: field " ++ fe.1 ++
                 " not in dataset",
               suggested_fix := "Fix field mapping or adjust rule configuration." : Issue}]
          else
            ([] : List (Nat × List Value)).filterMap (fun p =>
              if actualText (getCell df.cols p.2 fe.1) ≠ pyStrip fe.2 then
                some { check := "consistency", record_index := some p.1,
                       field := some fe.1,
                       message := "Rule " ++ rule.name ++ ": expected " ++
                         fe.1 ++ " == " ++ pyStrip fe.2 ++ " when " ++
                         rule.when_field ++ " == " ++ rule.when_equals,
                       suggested_fix := "Set " ++ fe.1 ++ " to " ++
                         pyStrip fe.2 ++ " or correct " ++ rule.when_field ++ "." }
              else none)) = [] := by
        rw [List.flatMap_eq_nil_iff]
        intro fe hfe
        rw [if_neg (by simp [h4 fe hfe])]
        rfl
      rw [hreq, heqs]
      rfl
    simp only [run_consistency, hemp, if_false, Bool.false_eq_true]
    rw [hissues]
    simp

/-- C2 witness: the amended theorem applied to a table where the rule's
fields all exist but no row matches the `when` condition. -/
theorem run_consistency_empty_scope_pass_witness :
    (run_consistency ⟨["status", "approver"], [[Value.str "x", Value.null]]⟩
      ⟨[⟨"r1", "status", "approved", ["approver"], []⟩]⟩).status =
      Status.PASS :=
  (run_consistency_empty_scope_pass
    ⟨["status", "approver"], [[Value.str "x", Value.null]]⟩
    ⟨[⟨"r1", "status", "approved", ["approver"], []⟩]⟩
    (by decide) (by decide)).1

theorem statusOfDrift_spec (q wthr fthr : ℚ) :
    ((if q ≥ fthr then Status.FAIL else if q ≥ wthr then .WARN else .PASS) =
        .FAIL ↔ fthr ≤ q) ∧
    ((if q ≥ fthr then Status.FAIL else if q ≥ wthr then .WARN else .PASS) =
        .WARN ↔ wthr ≤ q ∧ q < fthr) ∧
    ((if q ≥ fthr then Status.FAIL else if q ≥ wthr then .WARN else .PASS) =
        .PASS ↔ q < fthr ∧ q < wthr) := by
  split_ifs with h1 h2
  · exact ⟨iff_of_true rfl h1,
      iff_of_false (by simp) (fun h => absurd h1 (not_le.mpr h.2)),
      iff_of_false (by simp) (fun h => absurd h1 (not_le.mpr h.1))⟩
  · exact ⟨iff_of_false (by simp) h1,
      iff_of_true rfl ⟨h2, not_le.mp h1⟩,
      iff_of_false (by simp) (fun h => absurd h2 (not_le.mpr h.2))⟩
  · exact ⟨iff_of_false (by simp) h1,
      iff_of_false (by simp) (fun h => h2 h.1),
      iff_of_true rfl ⟨not_le.mp h1, not_le.mp h2⟩⟩

/-- C7: when the date field exists and the table buckets into strictly
more than `baseline_periods` (≥ 1) distinct periods, the baseline average
is the mean of the `baseline_periods` period counts immediately preceding
the latest period (the latest itself excluded), `pct_change` is
`(latest - baseline_avg) / baseline_avg` with the surrogate value 1.0 when
the baseline average is 0, the status is FAIL iff |pct_change| ≥
fail_pct_change, WARN iff warn_pct_change ≤ |pct_change| < fail_pct_change
and PASS otherwise, and a non-PASS status yields exactly one synthetic
issue with a null record_index while PASS yields none. -/
theorem run_drift_spec (toPeriod : Value → Option Int) (df : DataFrame)
    (cfg : DriftCfg)
    (h1 : cfg.date_field ≠ "")
    (h2 : df.cols.contains cfg.date_field = true)
    (h3 : 1 ≤ cfg.baseline_periods)
    (h4 : cfg.baseline_periods <
      (periodCounts toPeriod df cfg.date_field).length) :
    ∃ r, run_drift toPeriod df cfg = .ok r ∧
      r.baseline_avg =
        ((((periodCounts toPeriod df cfg.date_field).map Prod.snd).dropLast.drop
            (((periodCounts toPeriod df cfg.date_field).map Prod.snd).dropLast.length -
              cfg.baseline_periods)).sum : ℚ) / (cfg.baseline_periods : ℚ) ∧
      some r.latest_count =
        ((periodCounts toPeriod df cfg.date_field).map Prod.snd).getLast? ∧
      r.pct_change = (if r.baseline_avg = 0 then 1
        else ((r.latest_count : ℚ) - r.baseline_avg) / r.baseline_avg) ∧
      (r.status = .FAIL ↔ cfg.fail_pct_change ≤ |r.pct_change|) ∧
      (r.status = .WARN ↔ cfg.warn_pct_change ≤ |r.pct_change| ∧
        |r.pct_change| < cfg.fail_pct_change) ∧
      (r.status = .PASS ↔ |r.pct_change| < cfg.fail_pct_change ∧
        |r.pct_change| < cfg.warn_pct_change) ∧
      (r.status ≠ .PASS → r.issues.length = 1 ∧
        ∀ issue ∈ r.issues, issue.record_index = none) ∧
      (r.status = .PASS → r.issues = []) := by
  have hne : periodCounts toPeriod df cfg.date_field ≠ [] := by
    intro h
    rw [h] at h4
    simp at h4
  obtain ⟨last, hlast⟩ : ∃ last,
      (periodCounts toPeriod df cfg.date_field).getLast? = some last := by
    cases hgl : (periodCounts toPeriod df cfg.date_field).getLast? with
    | none => exact absurd (List.getLast?_eq_none_iff.mp hgl) hne
    | some l => exact ⟨l, rfl⟩
  have hL : cfg.baseline_periods <
      (periodCounts toPeriod df cfg.date_field).length := h4
  simp only [run_drift]
  rw [if_neg (by simp [h1, h2]; simpa using h2)]
  rw [hlast]
  dsimp only
  rw [if_neg (not_le.mpr hL)]
  refine ⟨_, rfl, ?_, ?_, ?_, ?_, ?_, ?_, ?_, ?_⟩
  · -- baseline average
    dsimp only
    have hlenbase : ((periodCounts toPeriod df cfg.date_field).dropLast.drop
        ((periodCounts toPeriod df cfg.date_field).length - 1 -
          cfg.baseline_periods)).length = cfg.baseline_periods := by
      rw [List.length_drop, List.length_dropLast]
      omega
    have hlists : ((periodCounts toPeriod df cfg.date_field).dropLast.drop
          ((periodCounts toPeriod df cfg.date_field).length - 1 -
            cfg.baseline_periods)).map Prod.snd =
        ((periodCounts toPeriod df cfg.date_field).map Prod.snd).dropLast.drop
          (((periodCounts toPeriod df cfg.date_field).map
            Prod.snd).dropLast.length - cfg.baseline_periods) := by
      rw [List.map_drop, List.map_dropLast]
      congr 1
      rw [List.length_dropLast, List.length_map]
    rw [hlenbase, Rat.mkRat_eq_div, hlists]
    simp only [Int.cast_natCast]
  · -- latest count
    dsimp only
    rw [List.getLast?_map, hlast]
    rfl
  · -- pct formula
    dsimp only
  · dsimp only
    exact (statusOfDrift_spec _ cfg.warn_pct_change cfg.fail_pct_change).1
  · dsimp only
    exact (statusOfDrift_spec _ cfg.warn_pct_change cfg.fail_pct_change).2.1
  · dsimp only
    exact (statusOfDrift_spec _ cfg.warn_pct_change cfg.fail_pct_change).2.2
  · -- non-PASS: exactly one synthetic issue
    dsimp only
    intro hnp
    rw [if_pos hnp]
    exact ⟨rfl, by rintro issue hmem; simp at hmem; subst hmem; rfl⟩
  · dsimp only
    intro hp
    rw [if_neg (fun hcon => hcon hp)]

/-- C7 witness: the theorem applied to monthly counts [1,1,2] with
baseline_periods = 2 (baseline average 1, pct_change +100%, FAIL at the
default 50% threshold). -/
theorem run_drift_spec_witness :
    ∃ r, run_drift toPeriodTest
        ⟨["date"], [[Value.str "2024-01"], [Value.str "2024-02"],
                    [Value.str "2024-03"], [Value.str "2024-03"]]⟩
        ⟨"date", 2, 3/10, 1/2⟩ = .ok r ∧
      (r.status = .FAIL ↔ (1/2 : ℚ) ≤ |r.pct_change|) := by
  obtain ⟨r, hok, _, _, _, hfail, _⟩ := run_drift_spec toPeriodTest
    ⟨["date"], [[Value.str "2024-01"], [Value.str "2024-02"],
                [Value.str "2024-03"], [Value.str "2024-03"]]⟩
    ⟨"date", 2, 3/10, 1/2⟩ (by decide) (by decide) (by decide) (by decide)
  exact ⟨r, hok, hfail⟩

/-- C1 (code bug): the spec requires every check to run to completion and
return a well-formed CheckResult even on zero rows or zero parseable
dates, but `run_drift` evaluates `counts.iloc[-1]` (drift.py line 53)
inside the "not enough periods" early return, and on an empty period
series that raises an uncaught IndexError — both when the only date value
fails to parse and when the table has zero rows. -/
theorem run_drift_raises_on_empty_period_series :
    run_drift toPeriodTest ⟨["date"], [[Value.str "not-a-date"]]⟩
        ⟨"date", 2, 3/10, 1/2⟩ =
      .error "IndexError: single positional indexer is out-of-bounds" ∧
    run_drift toPeriodTest ⟨["date"], []⟩ ⟨"date", 2, 3/10, 1/2⟩ =
      .error "IndexError: single positional indexer is out-of-bounds" := by
  exact ⟨by decide, by decide⟩

/-! ### Order facts for the fix-list comparators -/

theorem char_eq_of_toNat_eq {a b : Char} (h : a.toNat = b.toNat) : a = b := by
  have hv : a.val = b.val := by
    have h2 : a.val.toNat = b.val.toNat := h
    exact UInt32.toNat.inj h2
  exact Char.ext hv

theorem listLexLEb_refl : ∀ a : List Char, listLexLEb a a = true
  | [] => rfl
  | c :: cs => by
    unfold listLexLEb
    rw [if_neg (Nat.lt_irrefl _), if_neg (Nat.lt_irrefl _)]
    exact listLexLEb_refl cs

theorem listLexLEb_total : ∀ a b : List Char,
    listLexLEb a b = true ∨ listLexLEb b a = true
  | [], _ => Or.inl rfl
  | _ :: _, [] => Or.inr rfl
  | a :: as, b :: bs => by
    unfold listLexLEb
    rcases Nat.lt_trichotomy a.toNat b.toNat with h | h | h
    · left
      rw [if_pos h]
    · rw [if_neg (by omega), if_neg (by omega), if_neg (by omega),
        if_neg (by omega)]
      exact listLexLEb_total as bs
    · right
      rw [if_pos h]

theorem listLexLEb_trans : ∀ a b c : List Char, listLexLEb a b = true →
    listLexLEb b c = true → listLexLEb a c = true
  | [], _, _ => by
    intro _ _
    rfl
  | _ :: _, [], _ => by
    intro h1 _
    exact absurd h1 (by simp [listLexLEb])
  | _ :: _, _ :: _, [] => by
    intro _ h2
    exact absurd h2 (by simp [listLexLEb])
  | a :: as, b :: bs, c :: cs => by
    intro h1 h2
    unfold listLexLEb at h1 h2 ⊢
    rcases Nat.lt_trichotomy a.toNat b.toNat with hab | hab | hab
    · rcases Nat.lt_trichotomy b.toNat c.toNat with hbc | hbc | hbc
      · rw [if_pos (by omega)]
      · rw [if_pos (by omega)]
      · rw [if_neg (by omega), if_pos hbc] at h2
        exact absurd h2 (by simp)
    · rcases Nat.lt_trichotomy b.toNat c.toNat with hbc | hbc | hbc
      · rw [if_pos (by omega)]
      · rw [if_neg (by omega), if_neg (by omega)] at h1 h2
        rw [if_neg (by omega), if_neg (by omega)]
        exact listLexLEb_trans as bs cs h1 h2
      · rw [if_neg (by omega), if_pos hbc] at h2
        exact absurd h2 (by simp)
    · rw [if_neg (by omega), if_pos hab] at h1
      exact absurd h1 (by simp)

theorem listLexLEb_antisymm : ∀ a b : List Char, listLexLEb a b = true →
    listLexLEb b a = true → a = b
  | [], [] => by
    intro _ _
    rfl
  | [], _ :: _ => by
    intro _ h2
    exact absurd h2 (by simp [listLexLEb])
  | _ :: _, [] => by
    intro h1 _
    exact absurd h1 (by simp [listLexLEb])
  | a :: as, b :: bs => by
    intro h1 h2
    unfold listLexLEb at h1 h2
    rcases Nat.lt_trichotomy a.toNat b.toNat with h | h | h
    · rw [if_neg (by omega), if_pos h] at h2
      exact absurd h2 (by simp)
    · obtain rfl : a = b := char_eq_of_toNat_eq h
      rw [if_neg (by omega), if_neg (by omega)] at h1 h2
      rw [listLexLEb_antisymm as bs h1 h2]
    · rw [if_neg (by omega), if_pos h] at h1
      exact absurd h1 (by simp)

theorem strLEb_refl (a : String) : strLEb a a = true := listLexLEb_refl a.data

theorem strLEb_total (a b : String) :
    strLEb a b = true ∨ strLEb b a = true := listLexLEb_total a.data b.data

theorem strLEb_trans (a b c : String) (h1 : strLEb a b = true)
    (h2 : strLEb b c = true) : strLEb a c = true :=
  listLexLEb_trans a.data b.data c.data h1 h2

theorem strLEb_antisymm (a b : String) (h1 : strLEb a b = true)
    (h2 : strLEb b a = true) : a = b := by
  have h := listLexLEb_antisymm a.data b.data h1 h2
  cases a
  cases b
  simp only at h
  rw [h]

theorem optLEb_refl : ∀ a : Option String, optLEb a a = true
  | none => rfl
  | some s => strLEb_refl s

theorem optLEb_total : ∀ a b : Option String,
    optLEb a b = true ∨ optLEb b a = true
  | none, none => Or.inl rfl
  | none, some _ => Or.inr rfl
  | some _, none => Or.inl rfl
  | some s, some t => strLEb_total s t

theorem optLEb_trans (a b c : Option String) (h1 : optLEb a b = true)
    (h2 : optLEb b c = true) : optLEb a c = true := by
  cases a with
  | none =>
    cases c with
    | none => rfl
    | some u =>
      cases b with
      | none => exact absurd h2 (by simp [optLEb])
      | some t => exact absurd h1 (by simp [optLEb])
  | some s =>
    cases c with
    | none => rfl
    | some u =>
      cases b with
      | none => exact absurd h2 (by simp [optLEb])
      | some t => exact strLEb_trans s t u h1 h2

theorem optLEb_antisymm : ∀ a b : Option String, optLEb a b = true →
    optLEb b a = true → a = b
  | none, none => by
    intro _ _
    rfl
  | none, some _ => by
    intro h1 _
    exact absurd h1 (by simp [optLEb])
  | some _, none => by
    intro _ h2
    exact absurd h2 (by simp [optLEb])
  | some s, some t => by
    intro h1 h2
    rw [strLEb_antisymm s t h1 h2]

theorem natDescb_total (u v : Nat) (h : u ≠ v) :
    natDescb u v = true ∨ natDescb v u = true := by
  unfold natDescb
  rcases Nat.lt_or_ge u v with h2 | h2
  · right
    simpa using h2
  · left
    simp only [decide_eq_true_eq]
    omega

theorem natDescb_trans (u v w : Nat) (h1 : natDescb u v = true)
    (h2 : natDescb v w = true) : natDescb u w = true := by
  simp only [natDescb, decide_eq_true_eq] at h1 h2 ⊢
  omega

theorem natDescb_antisymm (u v : Nat) (h1 : natDescb u v = true)
    (h2 : natDescb v u = true) : u = v := by
  simp only [natDescb, decide_eq_true_eq] at h1 h2
  omega

theorem lexI_total {α β : Type} [DecidableEq β] (f : α → β)
    (le1 : β → β → Bool) (le2 : α → α → Bool)
    (h1 : ∀ u v : β, u ≠ v → le1 u v = true ∨ le1 v u = true)
    (h2 : ∀ x y : α, le2 x y = true ∨ le2 y x = true) (x y : α) :
    lexI f le1 le2 x y = true ∨ lexI f le1 le2 y x = true := by
  unfold lexI
  by_cases h : f x = f y
  · rw [if_pos h, if_pos h.symm]
    exact h2 x y
  · rw [if_neg h, if_neg (Ne.symm h)]
    exact h1 _ _ h

theorem lexI_trans {α β : Type} [DecidableEq β] (f : α → β)
    (le1 : β → β → Bool) (le2 : α → α → Bool)
    (h1t : ∀ u v w : β, le1 u v = true → le1 v w = true → le1 u w = true)
    (h1a : ∀ u v : β, le1 u v = true → le1 v u = true → u = v)
    (h2t : ∀ x y z : α, le2 x y = true → le2 y z = true → le2 x z = true)
    (x y z : α) (hxy : lexI f le1 le2 x y = true)
    (hyz : lexI f le1 le2 y z = true) : lexI f le1 le2 x z = true := by
  unfold lexI at hxy hyz ⊢
  by_cases hab : f x = f y <;> by_cases hbc : f y = f z
  · rw [if_pos hab] at hxy
    rw [if_pos hbc] at hyz
    rw [if_pos (hab.trans hbc)]
    exact h2t x y z hxy hyz
  · rw [if_neg hbc] at hyz
    rw [if_neg (fun h => hbc (hab.symm.trans h)), hab]
    exact hyz
  · rw [if_neg hab] at hxy
    rw [if_neg (fun h => hab (h.trans hbc.symm)), ← hbc]
    exact hxy
  · rw [if_neg hab] at hxy
    rw [if_neg hbc] at hyz
    have hac : f x ≠ f z := by
      intro h
      exact hab (h1a _ _ hxy (h ▸ hyz))
    rw [if_neg hac]
    exact h1t _ _ _ hxy hyz

theorem lexI_tie {α β : Type} [DecidableEq β] (f : α → β)
    (le1 : β → β → Bool) (le2 : α → α → Bool)
    (h1a : ∀ u v : β, le1 u v = true → le1 v u = true → u = v)
    (x y : α) (hxy : lexI f le1 le2 x y = true)
    (hyx : lexI f le1 le2 y x = true) :
    f x = f y ∧ le2 x y = true ∧ le2 y x = true := by
  unfold lexI at hxy hyx
  by_cases h : f x = f y
  · rw [if_pos h] at hxy
    rw [if_pos h.symm] at hyx
    exact ⟨h, hxy, hyx⟩
  · rw [if_neg h] at hxy
    rw [if_neg (Ne.symm h)] at hyx
    exact absurd (h1a _ _ hxy hyx) h

theorem keyLEb_total (x y : FixKey) :
    keyLEb x y = true ∨ keyLEb y x = true := by
  unfold keyLEb
  exact lexI_total _ _ _ (fun u v _ => strLEb_total u v)
    (fun a b => lexI_total _ _ _ (fun u v _ => optLEb_total u v)
      (fun a2 b2 => optLEb_total a2.2.2 b2.2.2) a b) x y

theorem keyLEb_trans (x y z : FixKey) (h1 : keyLEb x y = true)
    (h2 : keyLEb y z = true) : keyLEb x z = true := by
  unfold keyLEb at h1 h2 ⊢
  exact lexI_trans _ _ _ strLEb_trans strLEb_antisymm
    (fun a b c => lexI_trans _ _ _ optLEb_trans optLEb_antisymm
      (fun a2 b2 c2 => optLEb_trans a2.2.2 b2.2.2 c2.2.2) a b c) x y z h1 h2

theorem fullLEb_total (x y : FixEntry) :
    fullLEb x y = true ∨ fullLEb y x = true := by
  unfold fullLEb
  exact lexI_total _ _ _ natDescb_total
    (fun a b => keyLEb_total (entrySig a) (entrySig b)) x y

theorem fullLEb_trans (x y z : FixEntry) (h1 : fullLEb x y = true)
    (h2 : fullLEb y z = true) : fullLEb x z = true := by
  unfold fullLEb at h1 h2 ⊢
  exact lexI_trans _ _ _ natDescb_trans natDescb_antisymm
    (fun a b c => keyLEb_trans (entrySig a) (entrySig b) (entrySig c))
    x y z h1 h2

theorem le2b_tie_count (x y : FixEntry) (h1 : le2b x y = true)
    (h2 : le2b y x = true) : x.count = y.count := by
  unfold le2b at h1 h2
  exact (lexI_tie _ _ _ natDescb_antisymm x y h1 h2).1

/-- The full signature order refines the three-column sort comparator. -/
theorem le2b_of_fullLEb (x y : FixEntry) (h : fullLEb x y = true) :
    le2b x y = true := by
  unfold fullLEb lexI at h
  unfold le2b lexI
  by_cases hc : x.count = y.count
  · rw [if_pos hc] at h ⊢
    unfold keyLEb lexI at h
    simp only [entrySig] at h
    dsimp only at h ⊢
    by_cases hk : x.check = y.check
    · rw [if_pos hk] at h
      rw [if_pos hk]
      by_cases hf : x.field = y.field
      · rw [hf]
        exact optLEb_refl _
      · rw [if_neg hf] at h
        exact h
    · rw [if_neg hk] at h
      rw [if_neg hk]
      exact h
  · rw [if_neg hc] at h ⊢
    exact h

/-! ### Stable sort lemmas -/

theorem perm_insertLe {α : Type} (le : α → α → Bool) (a : α) :
    ∀ t : List α, (insertLe le a t).Perm (a :: t)
  | [] => List.Perm.refl _
  | b :: t => by
    unfold insertLe
    by_cases h : le a b = true
    · rw [if_pos h]
    · rw [if_neg h]
      exact ((perm_insertLe le a t).cons b).trans (List.Perm.swap a b t)

theorem perm_sortLe {α : Type} (le : α → α → Bool) :
    ∀ l : List α, (sortLe le l).Perm l
  | [] => List.Perm.refl _
  | a :: t => by
    unfold sortLe
    exact (perm_insertLe le a (sortLe le t)).trans ((perm_sortLe le t).cons a)

/-- Inserting under `le` preserves `Pairwise full` when `full` is a total
transitive refinement of `le` and the inserted element is `full`-below
every element it ties with under `le` (the stability invariant). -/
theorem pairwise_insertLe {α : Type} (le : α → α → Bool) (full : α → α → Prop)
    (ftot : ∀ x y, full x y ∨ full y x)
    (ftrans : ∀ {x y z}, full x y → full y z → full x z)
    (fref : ∀ x y, full x y → le x y = true) (a : α) :
    ∀ t : List α, t.Pairwise full →
      (∀ b ∈ t, le a b = true → le b a = true → full a b) →
      (insertLe le a t).Pairwise full
  | [], _, _ => by simp [insertLe]
  | b :: t, hst, ha => by
    rcases List.pairwise_cons.mp hst with ⟨hbt, htt⟩
    unfold insertLe
    by_cases h : le a b = true
    · rw [if_pos h]
      have hab : full a b := by
        by_cases h2 : le b a = true
        · exact ha b (List.mem_cons_self b t) h h2
        · rcases ftot a b with hf | hf
          · exact hf
          · exact absurd (fref b a hf) h2
      refine List.pairwise_cons.mpr ⟨?_, hst⟩
      intro c hc
      rcases List.mem_cons.mp hc with rfl | hct
      · exact hab
      · exact ftrans hab (hbt c hct)
    · rw [if_neg h]
      have hba : full b a := by
        rcases ftot a b with hf | hf
        · exact absurd (fref a b hf) h
        · exact hf
      refine List.pairwise_cons.mpr
        ⟨?_, pairwise_insertLe le full ftot ftrans fref a t htt
          (fun c hc h1 h2 => ha c (List.mem_cons_of_mem b hc) h1 h2)⟩
      intro c hc
      rcases List.mem_cons.mp ((perm_insertLe le a t).mem_iff.mp hc) with
        rfl | hct
      · exact hba
      · exact hbt c hct

/-- The stable sort under `le` is `Pairwise full` whenever the input is
pairwise "ties under `le` are already `full`-ordered". -/
theorem pairwise_sortLe {α : Type} (le : α → α → Bool) (full : α → α → Prop)
    (ftot : ∀ x y, full x y ∨ full y x)
    (ftrans : ∀ {x y z}, full x y → full y z → full x z)
    (fref : ∀ x y, full x y → le x y = true) :
    ∀ l : List α,
      l.Pairwise (fun x y => le x y = true → le y x = true → full x y) →
      (sortLe le l).Pairwise full
  | [], _ => by simp [sortLe]
  | a :: t, hl => by
    rcases List.pairwise_cons.mp hl with ⟨hat, htl⟩
    unfold sortLe
    apply pairwise_insertLe le full ftot ftrans fref a _
      (pairwise_sortLe le full ftot ftrans fref t htl)
    intro b hb h1 h2
    exact hat b ((perm_sortLe le t).mem_iff.mp hb) h1 h2

theorem pairwise_of_forall {α : Type} {P : α → α → Prop}
    (h : ∀ x y, P x y) : ∀ l : List α, l.Pairwise P
  | [] => List.Pairwise.nil
  | a :: t => List.pairwise_cons.mpr
      ⟨fun b _ => h a b, pairwise_of_forall h t⟩

theorem sum_map_add_distrib {α : Type} (f g : α → Nat) :
    ∀ l : List α,
      (l.map (fun x => f x + g x)).sum = (l.map f).sum + (l.map g).sum
  | [] => rfl
  | a :: t => by
    simp only [List.map_cons, List.sum_cons]
    rw [sum_map_add_distrib f g t]
    omega

theorem sum_map_ite_count {α : Type} [DecidableEq α] (a : α) :
    ∀ l : List α,
      (l.map (fun x => if x = a then 1 else 0)).sum = l.count a
  | [] => rfl
  | b :: t => by
    simp only [List.map_cons, List.sum_cons, List.count_cons]
    rw [sum_map_ite_count a t]
    by_cases h : b = a
    · rw [if_pos h, if_pos (by simp [h])]
      omega
    · rw [if_neg h, if_neg (by simp; exact h)]
      omega

theorem sum_map_count_dedup {α : Type} [DecidableEq α] :
    ∀ l : List α, (l.dedup.map (fun a => l.count a)).sum = l.length
  | [] => by simp
  | a :: t => by
    by_cases hmem : a ∈ t
    · rw [List.dedup_cons_of_mem hmem]
      have hmc : ∀ x ∈ t.dedup,
          (a :: t).count x = t.count x + (if x = a then 1 else 0) := by
        intro x _
        rw [List.count_cons]
        by_cases h : x = a
        · rw [if_pos (by simp [h]), if_pos h]
        · rw [if_neg (by simp; exact fun hh => h hh.symm), if_neg h]
      rw [List.map_congr_left hmc, sum_map_add_distrib,
        sum_map_ite_count a t.dedup, List.count_dedup, if_pos hmem,
        sum_map_count_dedup t]
      simp
    · rw [List.dedup_cons_of_not_mem hmem]
      simp only [List.map_cons, List.sum_cons]
      rw [List.count_cons_self, List.count_eq_zero.mpr hmem]
      have hmc : ∀ x ∈ t.dedup, (a :: t).count x = t.count x := by
        intro x hx
        have hxt : x ∈ t := List.mem_dedup.mp hx
        have hxa : x ≠ a := fun h => hmem (h ▸ hxt)
        exact List.count_cons_of_ne hxa t
      rw [List.map_congr_left hmc, sum_map_count_dedup t,
        List.length_cons]
      omega

/-- C3 counterexample: the claim predicts (a) ties among equal
counts/checks/fields broken by first-appearance order and (b) null
field/message defaulted to "".  The code sorts tied signatures by message
ascending (groupby presorts the keys), and keeps null keys as their own
group, sorted after every string — so with first row ("c","f","zzz") the
"aaa" signature still comes first, and a null field sorts after "zzz"
rather than as "" before it. -/
theorem write_fix_list_not_insertion_order :
    ((write_fix_list
        [⟨"c", some "f", some "zzz"⟩, ⟨"c", some "f", some "aaa"⟩]).map
      entrySig =
      [("c", some "f", some "aaa"), ("c", some "f", some "zzz")] ∧
    [("c", some "f", some "aaa"), ("c", some "f", some "zzz")] ≠
      ([("c", some "f", some "zzz"), ("c", some "f", some "aaa")] :
        List FixKey)) ∧
    ((write_fix_list
        [⟨"c", none, some "m1"⟩, ⟨"c", some "zzz", some "m2"⟩]).map
      FixEntry.field = [some "zzz", none] ∧
    ∀ e ∈ write_fix_list
        [⟨"c", none, some "m1"⟩, ⟨"c", some "zzz", some "m2"⟩],
      e.field ≠ some "") := by
  refine ⟨⟨by decide, by decide⟩, by decide, by decide⟩

/-- C3 (amended): the fix list has exactly one row per distinct
(check, field, message) signature of the combined issues table — null
fields/messages kept as their own signature values rather than defaulted
to "" — each row's count is the number of issues with that signature (so
the counts sum to the total issue row count), and the rows are totally
ordered by count descending, then check ascending, then field ascending,
then message ascending, with null fields/messages sorting last (the
message tie-break comes from the groupby presort plus sort stability, not
from first-appearance order). -/
theorem write_fix_list_spec (issues : List FixRow) :
    ((write_fix_list issues).map entrySig).Perm (issues.map fixSig).dedup ∧
    (∀ e ∈ write_fix_list issues,
      e.count = (issues.map fixSig).count (entrySig e)) ∧
    ((write_fix_list issues).map FixEntry.count).sum = issues.length ∧
    (write_fix_list issues).Pairwise (fun x y => fullLEb x y = true) := by
  by_cases hemp : issues.isEmpty
  · obtain rfl : issues = [] := List.isEmpty_iff.mp hemp
    simp [write_fix_list]
  · have hwfl : write_fix_list issues =
        sortLe le2b ((sortLe keyLEb (issues.map fixSig).dedup).map (fun k =>
          ({ check := k.1, field := k.2.1, message := k.2.2,
             count := (issues.map fixSig).count k } : FixEntry))) := by
      unfold write_fix_list
      rw [if_neg hemp]
    have hpermc : (write_fix_list issues).Perm
        ((sortLe keyLEb (issues.map fixSig).dedup).map (fun k =>
          ({ check := k.1, field := k.2.1, message := k.2.2,
             count := (issues.map fixSig).count k } : FixEntry))) := by
      rw [hwfl]
      exact perm_sortLe le2b _
    have hpermg : (sortLe keyLEb (issues.map fixSig).dedup).Perm
        (issues.map fixSig).dedup := perm_sortLe keyLEb _
    have hmapsig : ((sortLe keyLEb (issues.map fixSig).dedup).map (fun k =>
        ({ check := k.1, field := k.2.1, message := k.2.2,
           count := (issues.map fixSig).count k } : FixEntry))).map entrySig =
        sortLe keyLEb (issues.map fixSig).dedup := by
      rw [List.map_map]
      have hid : (entrySig ∘ fun k : FixKey =>
          ({ check := k.1, field := k.2.1, message := k.2.2,
             count := (issues.map fixSig).count k } : FixEntry)) = id :=
        funext fun k => rfl
      rw [hid, List.map_id]
    refine ⟨?_, ?_, ?_, ?_⟩
    · have h1 := hpermc.map entrySig
      rw [hmapsig] at h1
      exact h1.trans hpermg
    · intro e he
      have he2 := hpermc.mem_iff.mp he
      obtain ⟨k, _, rfl⟩ := List.mem_map.mp he2
      rfl
    · have h1 := (hpermc.map FixEntry.count).sum_eq
      rw [h1, List.map_map]
      have h2 : (FixEntry.count ∘ fun k : FixKey =>
          ({ check := k.1, field := k.2.1, message := k.2.2,
             count := (issues.map fixSig).count k } : FixEntry)) =
          fun k => (issues.map fixSig).count k := funext fun k => rfl
      rw [h2]
      have h3 := (hpermg.map (fun k => (issues.map fixSig).count k)).sum_eq
      rw [h3, sum_map_count_dedup, List.length_map]
    · rw [hwfl]
      apply pairwise_sortLe le2b (fun x y => fullLEb x y = true)
        fullLEb_total (fun {x y z} h1 h2 => fullLEb_trans x y z h1 h2)
        le2b_of_fullLEb
      apply List.pairwise_map.mpr
      have hg : (sortLe keyLEb (issues.map fixSig).dedup).Pairwise
          (fun k1 k2 => keyLEb k1 k2 = true) := by
        apply pairwise_sortLe keyLEb (fun k1 k2 => keyLEb k1 k2 = true)
          keyLEb_total (fun {x y z} h1 h2 => keyLEb_trans x y z h1 h2)
          (fun _ _ h => h)
        exact pairwise_of_forall (fun _ _ h _ => h) _
      refine hg.imp ?_
      intro k1 k2 hk h1 h2
      have hcnt := le2b_tie_count _ _ h1 h2
      unfold fullLEb lexI
      rw [if_pos hcnt]
      exact hk
